import Mathlib

/-
Verification of the sunduk single-file key/value store.

The embedding follows the current implementation (the version whose
symbols Get, Put, PutAll, Delete, loadFromDisk, readHeader, flush,
writeSize, writeCompressed, writeHeader and save appear in
src/sunduk_test.go lines 187-555).

Modelling conventions:
- Go byte slices and strings are `List Nat` (each element a byte value).
  Go's strings.Split / strings.Join on "#" act bytewise on the single
  byte 35, modelled by splitHash / joinHash.
- Go maps are association lists with unique keys (insertA replaces an
  existing binding); map iteration order never leaks into observable
  state because save sorts the keys.
- The brotli codec is external to the repository, so it is modelled by
  a `Codec` structure: a compression function, a partial decompression
  function, and the round-trip law.  `idCodec` is a concrete instance
  used to evaluate scenarios.
- The filesystem is collapsed to the three paths the store ever
  touches: the live path `FilePath`, the temporary `FilePath+".new"`
  and the backup `FilePath+".bak"` (these three strings are pairwise
  distinct for every base path, so a three-slot record is an exact
  model for a single store).  The `flushes` field is ghost
  instrumentation counting invocations of `flush`.
- An open `*os.File` handle is modelled as a snapshot of the bytes it
  can read (`Option Bytes`); POSIX renames do not disturb an open
  handle, and `Seek` on a nil handle returns `ErrInvalid`.
- `New` panics when `loadFromDisk` fails; the model propagates the
  failure as `Except.error`.
-/

namespace Sunduk

abbrev Bytes := List Nat

abbrev Key := List Nat

/-- On-disk locator, from `type entry struct { Offset int64; Size int32 }`. -/
structure Entry where
  offset : Nat
  size : Nat
deriving DecidableEq, Repr

/-- Association-list lookup: Go `m[k]` with its comma-ok form. -/
def lookupA {α : Type} : List (Key × α) → Key → Option α
  | [], _ => none
  | (k1, v1) :: rest, k => if k1 = k then some v1 else lookupA rest k

/-- Association-list insert/overwrite: Go `m[k] = v`. -/
def insertA {α : Type} : List (Key × α) → Key → α → List (Key × α)
  | [], k, v => [(k, v)]
  | (k1, v1) :: rest, k, v =>
    if k1 = k then (k, v) :: rest else (k1, v1) :: insertA rest k v

/-- Association-list removal: Go `delete(m, k)` (a no-op when absent). -/
def eraseA {α : Type} : List (Key × α) → Key → List (Key × α)
  | [], _ => []
  | (k1, v1) :: rest, k =>
    if k1 = k then rest else (k1, v1) :: eraseA rest k

/-- The external compression library (brotli): a compressor, a partial
decompressor, and the round-trip law the library guarantees. -/
structure Codec where
  comp : Bytes → Bytes
  decomp : Bytes → Option Bytes
  decomp_comp : ∀ b, decomp (comp b) = some b

/-- A trivial codec instance used to run the model on concrete inputs. -/
def idCodec : Codec := ⟨fun b => b, fun b => some b, fun _ => rfl⟩

/-- Little-endian 32-bit encoding, from `binary.LittleEndian.PutUint32`
(the argument is reduced mod 2^32 exactly as the Go uint32 cast does). -/
def le32 (n : Nat) : Bytes :=
  [n % 256, n / 256 % 256, n / 65536 % 256, n / 16777216 % 256]

/-- Reading one little-endian 32-bit word; `none` models the short read
that `readHeader` turns into an error. -/
def readLE32 : Bytes → Option (Nat × Bytes)
  | b0 :: b1 :: b2 :: b3 :: r =>
    some (b0 + 256 * b1 + 65536 * b2 + 16777216 * b3, r)
  | _ => none

/-- Go `strings.Split(s, "#")` acting bytewise (never returns `[]`;
splitting the empty string yields one empty segment). -/
def splitHash : Bytes → List Bytes
  | [] => [[]]
  | b :: rest =>
    match splitHash rest with
    | [] => [[]]
    | seg :: segs =>
      if b = 35 then [] :: seg :: segs else (b :: seg) :: segs

/-- Go `strings.Join(keys, "#")` acting bytewise. -/
def joinHash : List Key → Bytes
  | [] => []
  | [k] => k
  | k :: ks => k ++ 35 :: joinHash ks

/-- Lexicographic byte order on keys, as used by Go `sort.Strings`. -/
def keyLe : Key → Key → Bool
  | [], _ => true
  | _ :: _, [] => false
  | a :: as, b :: bs =>
    decide (a < b) || (decide (a = b) && keyLe as bs)

def insertSorted (k : Key) : List Key → List Key
  | [] => [k]
  | x :: xs => if keyLe k x then k :: x :: xs else x :: insertSorted k xs

/-- Sorting the key list, from `sort.Strings(keys)` in `save`. -/
def sortKeys : List Key → List Key
  | [] => []
  | x :: xs => insertSorted x (sortKeys xs)

/-- The header parse errors, one per `makeErr` call site in `readHeader`. -/
inductive HdrErr
  | truncCount
  | truncKeySize
  | truncChunkSize
  | truncBlob
  | corruptBlob
  | keyCountMismatch
deriving DecidableEq, Repr

/-- Store-level errors surfaced by `New`, `Put`, `PutAll` and `flush`. -/
inductive SErr
  | hdr (e : HdrErr)
  | createFail
  | inconsistent
  | renameBakFail
  | renameLiveFail
deriving DecidableEq, Repr

/-- The filesystem as seen by one store: the live path, the derived
temporary path `FilePath+".new"`, the derived backup path
`FilePath+".bak"`, and a ghost counter of `flush` invocations. -/
structure FS where
  live : Option Bytes
  tmp : Option Bytes
  bak : Option Bytes
  flushes : Nat
deriving DecidableEq, Repr

/-- The in-memory store, from `type Sunduk struct`: the open file
handle (a snapshot of the bytes it reads, `none` when closed), the
value cache `data`, and the `index` of on-disk locators. -/
structure Store where
  file : Option Bytes
  data : List (Key × Bytes)
  index : List (Key × Entry)
deriving DecidableEq, Repr

/-- Reading the `kc` per-chunk compressed sizes in `readHeader`
(the loop over `sizes`); `none` on any short read. -/
def readChunkSizes : Nat → Bytes → Option (List Nat × Bytes)
  | 0, r => some ([], r)
  | n + 1, r =>
    match readLE32 r with
    | none => none
    | some (s, r1) =>
      match readChunkSizes n r1 with
      | none => none
      | some (ss, r2) => some (s :: ss, r2)

/-- The index-building loop at the end of `readHeader`:
`store.index[k] = entry{offset, int32(sizes[i])}; offset += ...`.
(`keys` and `sizes` have equal length at the call site.) -/
def buildIndex : List Key → List Nat → Nat → List (Key × Entry) → List (Key × Entry)
  | [], _, _, acc => acc
  | k :: ks, s :: ss, off, acc => buildIndex ks ss (off + s) (insertA acc k ⟨off, s⟩)
  | k :: ks, [], off, acc => buildIndex ks [] off (insertA acc k ⟨off, 0⟩)

/-- `readHeader` (src/sunduk_test.go lines 332-393): read the key
count, the compressed key-blob size, the per-chunk sizes and the blob;
record the current file position as the data-region base; decompress
the blob, split it on the delimiter, check the key count, and build
the index with running offsets. -/
def readHeader (c : Codec) (contents : Bytes) : Except HdrErr (List (Key × Entry)) :=
  match readLE32 contents with
  | none => .error .truncCount
  | some (kc, r1) =>
    match readLE32 r1 with
    | none => .error .truncKeySize
    | some (ks, r2) =>
      match readChunkSizes kc r2 with
      | none => .error .truncChunkSize
      | some (sizes, r3) =>
        if r3.length < ks then .error .truncBlob
        else
          let blob := r3.take ks
          let off := 8 + 4 * kc + ks
          match c.decomp blob with
          | none => .error .corruptBlob
          | some header =>
            if (splitHash header).length ≠ kc then .error .keyCountMismatch
            else .ok (buildIndex (splitHash header) sizes off [])

/-- `loadFromDisk` (lines 309-329): create an empty file when the path
does not exist, otherwise open it and parse the header. -/
def loadFromDisk (c : Codec) (fs : FS) : FS × Except SErr Store :=
  match fs.live with
  | none =>
    ({ fs with live := some [] }, .ok { file := some [], data := [], index := [] })
  | some contents =>
    match readHeader c contents with
    | .error e => (fs, .error (.hdr e))
    | .ok idx => (fs, .ok { file := some contents, data := [], index := idx })

/-- `New` (lines 213-225): construct the store and load from disk;
the Go code panics on a load error, modelled as `Except.error`. -/
def New (c : Codec) (fs : FS) : FS × Except SErr Store :=
  loadFromDisk c fs

/-- `Close` (lines 228-235): release the file handle. -/
def Close (s : Store) : Store :=
  { s with file := none }

/-- `Get` (lines 238-267): value cache first, then the index.  With an
index hit the code seeks to `entry.Offset` (the absolute position the
parser stored), reads exactly `entry.Size` bytes, then constructs a
brotli reader over the still-empty buffer `zb`, reads from it into the
just-read slice, and returns `zb.Bytes()` — the empty byte string —
with `ok = true`.  A closed handle makes `Seek` fail, reported as
not-found.  The function never writes to the value cache. -/
def Get (s : Store) (key : Key) : Bytes × Bool :=
  match lookupA s.data key with
  | some v => (v, true)
  | none =>
    match lookupA s.index key with
    | none => ([], false)
    | some e =>
      match s.file with
      | none => ([], false)
      | some contents =>
        let chunk := (contents.drop e.offset).take e.size
        if chunk.length ≠ e.size then ([], false)
        else ([], true)

/-- Overwrite `b.length` bytes of `f` at position `p` (zero-filling any
gap), modelling a `Seek` followed by a `Write` on the new file. -/
def patchAt (f : Bytes) (p : Nat) (b : Bytes) : Bytes :=
  f.take p ++ List.replicate (p - f.length) 0 ++ b ++ f.drop (p + b.length)

/-- `writeHeader` (lines 472-506): write the key count, a zeroed index
table of `(N+1)*4` bytes, the compressed joined keys, then seek back
to offset 4 and patch in the compressed key-blob size. -/
def writeHeader (c : Codec) (keys : List Key) : Bytes :=
  let f1 := le32 keys.length ++ List.replicate ((keys.length + 1) * 4) 0
  let blob := c.comp (joinHash keys)
  patchAt (f1 ++ blob) 4 (le32 blob.length)

/-- The value-resolution step of `save`: the value cache first, else a
`Get`-style read through the old handle; `none` is the
"storage consistancy is broken" failure. -/
def resolveValue (s : Store) (k : Key) : Option Bytes :=
  match lookupA s.data k with
  | some v => some v
  | none =>
    match Get s k with
    | (v, true) => some v
    | (_, false) => none

/-- The per-key loop of `save`: resolve each value, compress it with
`writeCompressed` (lines 448-469), record its compressed size. -/
def writeChunks (c : Codec) (s : Store) : List Key → Except SErr (List Nat × Bytes)
  | [] => .ok ([], [])
  | k :: ks =>
    match resolveValue s k with
    | none => .error .inconsistent
    | some v =>
      let z := c.comp v
      match writeChunks c s ks with
      | .error e => .error e
      | .ok (sizes, rest) => .ok (z.length :: sizes, z ++ rest)

/-- `save` (lines 515-555): sort the index keys, write the header,
write each compressed chunk, then seek to offset 8 and patch the
recorded chunk sizes into the index table. -/
def save (c : Codec) (s : Store) : Except SErr Bytes :=
  let keys := sortKeys (s.index.map Prod.fst)
  match writeChunks c s keys with
  | .error e => .error e
  | .ok (sizes, chunks) =>
    .ok (patchAt (writeHeader c keys ++ chunks) 8 (List.flatten (sizes.map le32)))

/-- Fault injection for the fallible filesystem calls in `flush`. -/
structure Faults where
  createFails : Bool
  renameBakFails : Bool
  renameLiveFails : Bool
deriving DecidableEq, Repr

def noFaults : Faults := ⟨false, false, false⟩

/-- `flush` (lines 398-433): create `FilePath+".new"` and save into it
(on failure the deferred cleanup removes the temporary); close the
live handle; rename the live file to `FilePath+".bak"` (failing also
when the live file is absent); rename the temporary into the live
path.  Both deferred cleanups — remove the backup, remove the
temporary — run on every exit after their registration point, so a
failed final rename also deletes the backup.  `flushes` is ghost
instrumentation counting invocations. -/
def flush (c : Codec) (fl : Faults) (w : FS) (s : Store) : FS × Store × Except SErr Unit :=
  let w := { w with flushes := w.flushes + 1 }
  if fl.createFails then (w, s, .error .createFail)
  else
    let w1 := { w with tmp := some [] }
    match save c s with
    | .error e => ({ w1 with tmp := none }, s, .error e)
    | .ok content =>
      let w2 := { w1 with tmp := some content }
      let s1 := { s with file := none }
      if fl.renameBakFails then ({ w2 with tmp := none }, s1, .error .renameBakFail)
      else
        match w2.live with
        | none => ({ w2 with tmp := none }, s1, .error .renameBakFail)
        | some old =>
          let w3 := { w2 with live := none, bak := some old }
          if fl.renameLiveFails then
            ({ w3 with bak := none, tmp := none }, s1, .error .renameLiveFail)
          else
            ({ w3 with live := some content, tmp := none, bak := none }, s1, .ok ())

/-- `Put` (lines 270-274): record the index stub and the value, flush. -/
def Put (c : Codec) (fl : Faults) (w : FS) (s : Store) (key : Key) (value : Bytes) :
    FS × Store × Except SErr Unit :=
  flush c fl w
    { s with
      index := insertA s.index key ⟨0, value.length⟩
      data := insertA s.data key value }

/-- The insertion loop of `PutAll` (lines 277-283). -/
def putAllInsert (s : Store) : List (Key × Bytes) → Store
  | [] => s
  | (k, v) :: rest =>
    putAllInsert
      { s with data := insertA s.data k v, index := insertA s.index k ⟨0, 0⟩ } rest

/-- `PutAll` (lines 277-283): insert every entry, then flush once. -/
def PutAll (c : Codec) (fl : Faults) (w : FS) (s : Store) (entries : List (Key × Bytes)) :
    FS × Store × Except SErr Unit :=
  flush c fl w (putAllInsert s entries)

/-- `Delete` (lines 286-289): `delete(store.data, key); return nil`.
It performs no I/O; the filesystem is threaded through unchanged to
make the frame explicit. -/
def Delete (w : FS) (s : Store) (key : Key) : FS × Store × Except SErr Unit :=
  (w, { s with data := eraseA s.data key }, .ok ())

/-! Concrete scenario constants used to evaluate the model. -/

/-- An empty directory: no live file yet. -/
def fs0 : FS := ⟨none, none, none, 0⟩

/-- The store produced by `New` on a nonexistent path. -/
def st0 : Store := ⟨some [], [], []⟩

/-- The filesystem right after `New` created the empty live file. -/
def fsA : FS := ⟨some [], none, none, 0⟩

/-- The live file produced by `Put "a" [1]` on a fresh store (header:
count 1, key-blob size 1, chunk size 1, blob "a", chunk for `[1]`). -/
def F1 : Bytes := [1, 0, 0, 0, 1, 0, 0, 0, 1, 0, 0, 0, 97, 1]

/-- The filesystem holding `F1` at the live path. -/
def fsB : FS := ⟨some F1, none, none, 1⟩

/-- The store produced by `New` on `fsB`: index resident, cache empty. -/
def st2 : Store := ⟨some F1, [], [([97], ⟨13, 1⟩)]⟩

/-- `st2` after `Delete [97]`: the cache stays empty, the index entry
for key "a" survives. -/
def st3 : Store := ⟨some F1, [], [([97], ⟨13, 1⟩)]⟩

/-- The live file after `Delete "a"` then `Put "b" [2]` on `st2`:
both keys appear in the blob ("a#b"); the chunk for the deleted "a"
is the empty compressed string. -/
def F2 : Bytes := [2, 0, 0, 0, 3, 0, 0, 0, 0, 0, 0, 0, 1, 0, 0, 0, 97, 35, 98, 2]

/-- A filesystem with arbitrary pre-flush live content. -/
def c2w : FS := ⟨some [9, 9], none, none, 0⟩

/-- A store about to flush one key over `c2w`. -/
def c2s : Store := ⟨some [9, 9], [([97], [1])], [([97], ⟨0, 1⟩)]⟩

/-- Failure of only the final rename (temporary into live path). -/
def renameLiveFault : Faults := ⟨false, false, true⟩

/-- A two-entry batch for `PutAll`. -/
def eW : List (Key × Bytes) := [([1], [2]), ([3], [4])]

/-- The key blob "a#b" of the corrupt-header scenario. -/
def c4blob : Bytes := [97, 35, 98]

/-- Three chunk-size words followed by the key blob. -/
def c4r2 : Bytes := le32 1 ++ le32 1 ++ le32 1 ++ c4blob

/-- A file whose header records `entry_count = 3` over the blob "a#b". -/
def c4fs : FS := ⟨some (le32 3 ++ (le32 c4blob.length ++ c4r2)), none, none, 0⟩

/-! Helper lemmas about the association-list operations, the flush
state frame, and the little-endian encoding. -/

theorem lookupA_insertA_self {α : Type} (m : List (Key × α)) (k : Key) (v : α) :
    lookupA (insertA m k v) k = some v := by
  induction m with
  | nil => simp [insertA, lookupA]
  | cons hd t ih =>
    obtain ⟨k1, v1⟩ := hd
    by_cases hk : k1 = k
    · simp [insertA, lookupA, hk]
    · simp [insertA, lookupA, hk, ih]

theorem lookupA_insertA_ne {α : Type} (m : List (Key × α)) (k k2 : Key) (v : α)
    (h : k2 ≠ k) : lookupA (insertA m k2 v) k = lookupA m k := by
  induction m with
  | nil => simp [insertA, lookupA, h]
  | cons hd t ih =>
    obtain ⟨k1, v1⟩ := hd
    by_cases hk : k1 = k2
    · subst hk
      simp [insertA, lookupA, h]
    · by_cases hk1 : k1 = k
      · simp [insertA, lookupA, hk, hk1, Ne.symm h]
      · simp [insertA, lookupA, hk, hk1, ih]

theorem eraseA_of_lookup_none {α : Type} :
    ∀ (m : List (Key × α)) (k : Key), lookupA m k = none → eraseA m k = m := by
  intro m
  induction m with
  | nil => intro k _; rfl
  | cons hd t ih =>
    intro k h
    obtain ⟨k1, v1⟩ := hd
    by_cases hk : k1 = k
    · simp [lookupA, hk] at h
    · have h2 : lookupA t k = none := by simpa [lookupA, hk] using h
      simp [eraseA, hk, ih k h2]

theorem flush_fs_flushes (c : Codec) (fl : Faults) (w : FS) (s : Store) :
    (flush c fl w s).1.flushes = w.flushes + 1 := by
  rcases fl with ⟨cf, bf, lf⟩
  cases cf <;> cases bf <;> cases lf <;>
    cases hs : save c s <;>
    cases hl : w.live <;>
    simp [flush, hs, hl]

theorem flush_store_data (c : Codec) (fl : Faults) (w : FS) (s : Store) :
    (flush c fl w s).2.1.data = s.data := by
  rcases fl with ⟨cf, bf, lf⟩
  cases cf <;> cases bf <;> cases lf <;>
    cases hs : save c s <;>
    cases hl : w.live <;>
    simp [flush, hs, hl]

theorem putAllInsert_lookup_of_not_mem :
    ∀ (entries : List (Key × Bytes)) (s : Store) (k : Key),
      k ∉ entries.map Prod.fst →
      lookupA (putAllInsert s entries).data k = lookupA s.data k := by
  intro entries
  induction entries with
  | nil => intro s k _; rfl
  | cons hd t ih =>
    intro s k hk
    obtain ⟨k1, v1⟩ := hd
    simp only [List.map_cons, List.mem_cons, not_or] at hk
    simp only [putAllInsert]
    rw [ih _ k hk.2]
    exact lookupA_insertA_ne s.data k k1 v1 (fun h => hk.1 h.symm)

theorem putAllInsert_lookup_mem :
    ∀ (entries : List (Key × Bytes)) (s : Store) (k : Key) (v : Bytes),
      (k, v) ∈ entries → (entries.map Prod.fst).Nodup →
      lookupA (putAllInsert s entries).data k = some v := by
  intro entries
  induction entries with
  | nil => intro s k v hm _; cases hm
  | cons hd t ih =>
    intro s k v hm hnd
    obtain ⟨k1, v1⟩ := hd
    simp only [List.map_cons, List.nodup_cons] at hnd
    rcases List.mem_cons.mp hm with heq | hmem
    · cases heq
      simp only [putAllInsert]
      rw [putAllInsert_lookup_of_not_mem t _ k hnd.1]
      exact lookupA_insertA_self s.data k v
    · simp only [putAllInsert]
      exact ih _ k v hmem hnd.2

theorem readLE32_le32 (n : Nat) (r : Bytes) (h : n < 4294967296) :
    readLE32 (le32 n ++ r) = some (n, r) := by
  simp only [le32, List.cons_append, List.nil_append, readLE32,
    Option.some.injEq, Prod.mk.injEq, and_true]
  omega

theorem take_length_of_append {α : Type} (l1 l2 : List α) :
    (l1 ++ l2).take l1.length = l1 := by
  induction l1 with
  | nil => rfl
  | cons a t ih => simp [List.take, ih]

/-! The claims. -/

/-- Claim C1: the round-trip property fails on the code.  Concretely:
on an empty directory, `Put` key "a" (byte 97) with value `[1]`, then
`Close` (which touches no file) and `New` on the same path succeed and
rebuild the index, but `Get` of "a" returns the empty byte string with
`found = true` instead of the original `[1]`: the disk-resolution path
of `Get` decompresses an empty buffer rather than the chunk it just
read. -/
theorem C1_roundtrip_get_returns_empty :
    New idCodec fs0 = (fsA, .ok st0) ∧
    (Put idCodec noFaults fsA st0 [97] [1]).2.2 = .ok () ∧
    (Put idCodec noFaults fsA st0 [97] [1]).1.live = some F1 ∧
    (New idCodec (Put idCodec noFaults fsA st0 [97] [1]).1).2 = .ok st2 ∧
    Get st2 [97] = ([], true) ∧
    ([] : Bytes) ≠ [1] :=
  ⟨rfl, rfl, rfl, rfl, rfl, by decide⟩

/-- Claim C2: flush atomicity fails on the code.  When the rename of
the temporary file into the live path fails, the deferred cleanups
remove both the backup and the temporary, so the live path ends with
no file at all — neither the pre-flush bytes `[9, 9]` nor the newly
saved state — while the failure is reported. -/
theorem C2_failed_rename_loses_both_states :
    c2w.live = some [9, 9] ∧
    (flush idCodec renameLiveFault c2w c2s).2.2 = .error .renameLiveFail ∧
    (flush idCodec renameLiveFault c2w c2s).1.live = none ∧
    (flush idCodec renameLiveFault c2w c2s).1.bak = none ∧
    (flush idCodec renameLiveFault c2w c2s).1.tmp = none :=
  ⟨rfl, rfl, rfl, rfl, rfl⟩

/-- Claim C3: deletion visibility fails on the code.  `Delete` removes
the key only from the value cache and leaves the index entry in place,
so on a store freshly opened from a file containing key "a", `Delete`
followed by `Get` still reports the key as found. -/
theorem C3_delete_leaves_index_resurrection :
    (New idCodec fsB).2 = .ok st2 ∧
    (Delete fsB st2 [97]).2.1.index = st2.index ∧
    lookupA (Delete fsB st2 [97]).2.1.index [97] = some ⟨13, 1⟩ ∧
    (Get (Delete fsB st2 [97]).2.1 [97]).2 = true :=
  ⟨rfl, rfl, rfl, rfl⟩

/-- Claim C4: a header recording `entry_count = 3` whose decompressed
key blob splits into only 2 segments makes `readHeader` fail with the
key-count-mismatch error, and `New` on such a file propagates the
failure instead of yielding a store. -/
theorem C4_header_count_mismatch_fails (co : Codec) (fs : FS)
    (r2 blob kb tail : Bytes) (szs : List Nat)
    (hfs : fs.live = some (le32 3 ++ (le32 blob.length ++ r2)))
    (hL : blob.length < 4294967296)
    (hsz : readChunkSizes 3 r2 = some (szs, blob ++ tail))
    (hdec : co.decomp blob = some kb)
    (hsplit : (splitHash kb).length = 2) :
    readHeader co (le32 3 ++ (le32 blob.length ++ r2)) = .error .keyCountMismatch ∧
    (New co fs).2 = .error (.hdr .keyCountMismatch) := by
  have h3 : readLE32 (le32 3 ++ (le32 blob.length ++ r2)) =
      some (3, le32 blob.length ++ r2) :=
    readLE32_le32 3 _ (by norm_num)
  have hks : readLE32 (le32 blob.length ++ r2) = some (blob.length, r2) :=
    readLE32_le32 blob.length _ hL
  have hlen : ¬ ((blob ++ tail).length < blob.length) := by
    simp [List.length_append]
  have htake : (blob ++ tail).take blob.length = blob :=
    take_length_of_append blob tail
  have hmain : readHeader co (le32 3 ++ (le32 blob.length ++ r2)) =
      .error .keyCountMismatch := by
    simp only [readHeader, h3, hks, hsz, hlen, if_false, htake, hdec, hsplit]
    norm_num
  exact ⟨hmain, by simp [New, loadFromDisk, hfs, hmain]⟩

/-- Claim C4 witness: the concrete file `count = 3`, blob "a#b". -/
theorem C4_header_count_mismatch_fails_witness :
    (c4fs.live = some (le32 3 ++ (le32 c4blob.length ++ c4r2)) ∧
     c4blob.length < 4294967296 ∧
     readChunkSizes 3 c4r2 = some ([1, 1, 1], c4blob ++ []) ∧
     idCodec.decomp c4blob = some c4blob ∧
     (splitHash c4blob).length = 2) ∧
    (readHeader idCodec (le32 3 ++ (le32 c4blob.length ++ c4r2)) =
       .error .keyCountMismatch ∧
     (New idCodec c4fs).2 = .error (.hdr .keyCountMismatch)) :=
  ⟨⟨rfl, by decide, rfl, rfl, rfl⟩,
   C4_header_count_mismatch_fails idCodec c4fs c4r2 c4blob c4blob [] [1, 1, 1]
     rfl (by decide) rfl rfl rfl⟩

/-- Claim C5: the disk-resolution path of `Get` fails on the code.  On
a store freshly opened from `F1` (key "a", compressed chunk at offset
13, size 1), `Get` of "a" returns the empty byte string — not the
decompression `[1]` of the chunk it read — and the value cache is not
populated (`Get` mutates nothing: its value-cache lookup still misses
afterwards, and its Lean type `Store → Key → Bytes × Bool` mirrors the
Go function, which never assigns `store.data[key]`). -/
theorem C5_get_disk_path_returns_empty_without_caching :
    (New idCodec fsB).2 = .ok st2 ∧
    lookupA st2.data [97] = none ∧
    lookupA st2.index [97] = some ⟨13, 1⟩ ∧
    Get st2 [97] = ([], true) ∧
    idCodec.decomp ((F1.drop 13).take 1) = some [1] ∧
    ([] : Bytes) ≠ [1] :=
  ⟨rfl, rfl, rfl, rfl, rfl, by decide⟩

/-- Claim C6: reopening after flush fails on the code.  A successful
`Put` (hence a successful flush) leaves the store's file handle closed
(`file = none`); the live file is never reopened and no data-region
offset is refreshed (the store holds no such field). -/
theorem C6_flush_leaves_file_closed :
    (Put idCodec noFaults fsA st0 [97] [1]).2.2 = .ok () ∧
    (Put idCodec noFaults fsA st0 [97] [1]).2.1.file = none :=
  ⟨rfl, rfl⟩

/-- Claim C7: `PutAll` of a batch with distinct keys inserts every
entry into the value cache of the resulting store and invokes `flush`
exactly once, whatever the batch, the codec, the injected faults, the
filesystem and the starting store. -/
theorem C7_putAll_single_flush (c : Codec) (fl : Faults) (w : FS) (s : Store)
    (entries : List (Key × Bytes)) (hnd : (entries.map Prod.fst).Nodup) :
    (PutAll c fl w s entries).1.flushes = w.flushes + 1 ∧
    ∀ k v, (k, v) ∈ entries →
      lookupA ((PutAll c fl w s entries).2.1).data k = some v := by
  constructor
  · exact flush_fs_flushes c fl w (putAllInsert s entries)
  · intro k v hm
    have hd : (PutAll c fl w s entries).2.1.data = (putAllInsert s entries).data :=
      flush_store_data c fl w (putAllInsert s entries)
    rw [hd]
    exact putAllInsert_lookup_mem entries s k v hm hnd

/-- Claim C7 witness: a concrete two-entry batch. -/
theorem C7_putAll_single_flush_witness :
    (eW.map Prod.fst).Nodup ∧
    (PutAll idCodec noFaults fsA st0 eW).1.flushes = fsA.flushes + 1 ∧
    lookupA ((PutAll idCodec noFaults fsA st0 eW).2.1).data [1] = some [2] ∧
    lookupA ((PutAll idCodec noFaults fsA st0 eW).2.1).data [3] = some [4] :=
  ⟨by decide,
   (C7_putAll_single_flush idCodec noFaults fsA st0 eW (by decide)).1,
   (C7_putAll_single_flush idCodec noFaults fsA st0 eW (by decide)).2 [1] [2] (by decide),
   (C7_putAll_single_flush idCodec noFaults fsA st0 eW (by decide)).2 [3] [4] (by decide)⟩

/-- Claim C8 counterexample: the durability clause fails on the code.
On a store freshly opened from `F1` (key "a" on disk), `Delete "a"`
indeed touches no file, but at the next flush — triggered by
`Put "b" [2]`, which succeeds — the key "a" is still written into the
new live file `F2`: its header parses back to an index containing "a".
The deletion did not become durable at the next flush. -/
theorem C8_deleted_key_survives_next_flush :
    (Delete fsB st2 [97]).1 = fsB ∧
    (Delete fsB st2 [97]).2.1 = st3 ∧
    (Put idCodec noFaults fsB st3 [98] [2]).2.2 = .ok () ∧
    (Put idCodec noFaults fsB st3 [98] [2]).1.live = some F2 ∧
    readHeader idCodec F2 = .ok [([97], ⟨19, 0⟩), ([98], ⟨19, 1⟩)] ∧
    lookupA [([97], (⟨19, 0⟩ : Entry)), ([98], ⟨19, 1⟩)] [97] = some ⟨19, 0⟩ :=
  ⟨rfl, rfl, rfl, rfl, rfl, rfl⟩

/-- Claim C8 (amended): for every store and key, `Delete` triggers no
flush and leaves the whole filesystem — in particular the live file —
byte-for-byte unchanged, and returns success; but it leaves the
key's Index entry in place, so the deletion is not made durable by the
next flush (the surviving entry re-persists the key, as the
counterexample shows). -/
theorem C8_delete_no_flush_index_preserved (w : FS) (s : Store) (key : Key) :
    (Delete w s key).1 = w ∧
    (Delete w s key).2.2 = .ok () ∧
    (Delete w s key).2.1.index = s.index :=
  ⟨rfl, rfl, rfl⟩

/-- Claim C9: `New` on a nonexistent path creates a zero-byte live
file and succeeds with an empty store; since no header is written, a
second `New` on the same path fails — the 4-byte entry-count read
comes up short — so the never-written store cannot be reopened. -/
theorem C9_empty_store_reopen_fails (c : Codec) (fs : FS) (h : fs.live = none) :
    (New c fs).1.live = some [] ∧
    (New c fs).2 = .ok st0 ∧
    (New c (New c fs).1).2 = .error (.hdr .truncCount) := by
  simp [New, loadFromDisk, h, readHeader, readLE32, st0]

/-- Claim C9 witness: the empty directory `fs0`. -/
theorem C9_empty_store_reopen_fails_witness :
    fs0.live = none ∧
    ((New idCodec fs0).1.live = some [] ∧
     (New idCodec fs0).2 = .ok st0 ∧
     (New idCodec (New idCodec fs0).1).2 = .error (.hdr .truncCount)) :=
  ⟨rfl, C9_empty_store_reopen_fails idCodec fs0 rfl⟩

/-- Claim C10: `Delete` is total and never fails — it returns success
for every store state and key, never touches the Index, and deleting a
key absent from the value cache leaves the value cache unchanged. -/
theorem C10_delete_total_noop (w : FS) (s : Store) (key : Key) :
    (Delete w s key).2.2 = .ok () ∧
    (Delete w s key).2.1.index = s.index ∧
    (lookupA s.data key = none → (Delete w s key).2.1.data = s.data) :=
  ⟨rfl, rfl, fun h => eraseA_of_lookup_none s.data key h⟩

/-- Claim C10 witness: deleting the absent key `[5]` from `st2`. -/
theorem C10_delete_total_noop_witness :
    lookupA st2.data [5] = none ∧
    ((Delete fsB st2 [5]).2.2 = .ok () ∧
     (Delete fsB st2 [5]).2.1.index = st2.index ∧
     (Delete fsB st2 [5]).2.1.data = st2.data) :=
  ⟨rfl,
   (C10_delete_total_noop fsB st2 [5]).1,
   (C10_delete_total_noop fsB st2 [5]).2.1,
   (C10_delete_total_noop fsB st2 [5]).2.2 rfl⟩

end Sunduk
